import Mathlib

/-!
Shallow embedding of the maradocs-sdk-ts client core: the asynchronous
job-execution protocol (`FetchWrapper.request`, `FetchWrapper.pollResult`),
the validation-result unwrappers (`okHtml`, `okEmail`, `okImg`, `okPdf`),
the byte-transfer layer (`DataEp.upload` strategies, `DataEp.downloadBinary`),
the quadrilateral constructor (`QuadrilateralUtils.fromUnsorted`), and the
pipeline orchestrator (`Flow.ocrImg`, `Flow.ocrImgHandle`, `Flow.ocrPdf`,
`Flow.ocrPdfHandle`).

Conventions of the embedding:
- TypeScript numbers that hold byte counts, HTTP statuses and retry counters
  are `Nat`; relative coordinates and progress percentages are `ℚ`.
- Functions that `throw` are embedded as `Except MaraError`-valued functions;
  each `MaraError` constructor names the exception class (or generic `Error`
  message) the TypeScript code throws.
- Network endpoints reached through the transport collaborator are opaque:
  a poll is driven by the list of HTTP responses the server produces, an
  upload by the list of XHR progress events the browser delivers, and the
  pipeline orchestrator by an environment of endpoint functions.
-/

/-! ### Geometry: `RelativePosition`, `Quadrilateral` (src/unnamed/part_001) -/

/-- Relative position in an image, `RelativePositionSchema`:
`{x, y}` with both coordinates between 0.0 and 1.0. -/
structure RelativePosition where
  x : ℚ
  y : ℚ
deriving DecidableEq, Repr

/-- `QuadrilateralSchema`: four corner points
(top-left, top-right, bottom-right, bottom-left). -/
structure Quadrilateral where
  top_left : RelativePosition
  top_right : RelativePosition
  bottom_right : RelativePosition
  bottom_left : RelativePosition
deriving DecidableEq, Repr

/-- The `.refine` predicate of `QuadrilateralSchema`: the four corners are
in the correct relative positions. -/
def quadrilateralOrdered (q : Quadrilateral) : Prop :=
  q.top_left.x ≤ q.top_right.x ∧
  q.bottom_left.x ≤ q.bottom_right.x ∧
  q.top_left.y ≤ q.bottom_left.y ∧
  q.top_right.y ≤ q.bottom_right.y

instance (q : Quadrilateral) : Decidable (quadrilateralOrdered q) := by
  unfold quadrilateralOrdered; infer_instance

/-- Comparator `(a, b) => a.y - b.y` of `fromUnsorted`, as the ordering
relation it sorts by. -/
def posLeY (a b : RelativePosition) : Prop := a.y ≤ b.y

/-- Comparator `(a, b) => a.x - b.x` of `fromUnsorted`, as the ordering
relation it sorts by. -/
def posLeX (a b : RelativePosition) : Prop := a.x ≤ b.x

instance : DecidableRel posLeY := fun a b => inferInstanceAs (Decidable (a.y ≤ b.y))

instance : DecidableRel posLeX := fun a b => inferInstanceAs (Decidable (a.x ≤ b.x))

instance : IsTotal RelativePosition posLeY := ⟨fun a b => le_total a.y b.y⟩

instance : IsTrans RelativePosition posLeY := ⟨fun _ _ _ => le_trans⟩

instance : IsTotal RelativePosition posLeX := ⟨fun a b => le_total a.x b.x⟩

instance : IsTrans RelativePosition posLeX := ⟨fun _ _ _ => le_trans⟩

/-- `QuadrilateralUtils.fromUnsorted`: builds a `Quadrilateral` from an
unsorted list of 4 points, or throws `Error("Quadrilateral must have 4
points")` when the list does not have exactly 4 entries.  JavaScript's
`Array.prototype.sort` with a numeric comparator is a stable sort ordered by
the compared key, embedded here as `List.insertionSort` (stable) on the key
relations `posLeY` / `posLeX`. -/
def fromUnsorted (points : List RelativePosition) : Except String Quadrilateral :=
  if points.length ≠ 4 then
    .error "Quadrilateral must have 4 points"
  else
    let sortedByY := List.insertionSort posLeY points
    let top := sortedByY.take 2
    let bottom := sortedByY.drop 2
    let sortedTop := List.insertionSort posLeX top
    let sortedBottom := List.insertionSort posLeX bottom
    .ok
      { top_left := sortedTop.getD 0 ⟨0, 0⟩
        top_right := sortedTop.getD 1 ⟨0, 0⟩
        bottom_right := sortedBottom.getD 1 ⟨0, 0⟩
        bottom_left := sortedBottom.getD 0 ⟨0, 0⟩ }

/-- The four corner fields of a quadrilateral, in declaration order. -/
def quadCorners (q : Quadrilateral) : List RelativePosition :=
  [q.top_left, q.top_right, q.bottom_right, q.bottom_left]

/-! ### Error taxonomy (src/src/models/errors ≙ src/unnamed/part_003 and the
`Error` values thrown across the client) -/

/-- `ApiErrorSchema`: `{code, name, message}` as reported by the backend. -/
structure ApiError where
  code : Int
  name : String
  message : String
deriving DecidableEq, Repr

/-- `HttpErrorResponseSchema`: `{status_code, api_error}`. -/
structure HttpErrorResponse where
  status_code : Nat
  api_error : ApiError
deriving DecidableEq, Repr

/-- The failures the client can raise.  Each constructor corresponds to one
exception class or `Error` message of the TypeScript code (the spec's names
for them in parentheses):
- `apiError`: `ApiErrorException` (spec: `ApiError`), built by
  `ApiErrorException.fromHttpResponse` from a parsed error envelope;
- `httpError`: `Error("HTTP error! status: ...")` (spec: `TransportError`);
- `pollTimeout`: `Error("Failed processing the request in a reasonable
  time")` (spec: `PollTimeoutError`);
- `schemaError`: a zod parse failure rethrown on a success response;
- `noJsonBody`: `res.json()` rejecting on a success response;
- `validationError`: `ValidationErrorException` (spec: `ValidationError`);
- `virusError`: `ValidationVirusException` (spec: `ThreatDetectedError`);
- `downloadError`: `Error("Download failed: ...")` (spec: `DownloadError`);
- `uploadError`: `Error("S3 upload failed! ...")` (spec: `UploadError`);
- `noResponse`: artifact of driving a poll by a finite response trace that
  ran out before the loop reached a terminal outcome. -/
inductive MaraError where
  | apiError (status_code : Nat) (api_error : ApiError)
  | httpError (status : Nat) (statusText : String)
  | pollTimeout
  | schemaError
  | noJsonBody
  | validationError (message : String)
  | virusError (message : String)
  | downloadError (status : Nat)
  | uploadError (status : Nat) (statusText : String)
  | noResponse
deriving DecidableEq, Repr

/-! ### Validation responses and the Result Unwrapper
(src/src/models/html.ts `okHtml`, src/src/models/email.ts `okEmail`; the
per-kind counterparts `okImg` / `okPdf` are referenced by
src/src/MaraDocsClient/flow.ts but their modules are not among the provided
sources — they are modelled from the spec below).

The inner object of a validation response is embedded with its `class_name`
tag as a plain string (so that *arbitrary*, also unrecognized, tags can be
expressed) and with all payload fields present; zod guarantees the field
relevant to a recognized tag is populated, the others are immaterial. -/

/-- Inner object of `HtmlValidateResponseSchema`'s discriminated union. -/
structure HtmlValidateInner where
  class_name : String
  html_handle : String
  error : String
  virus : String
deriving DecidableEq, Repr

/-- `HtmlValidateResponseSchema`: wrapper holding the inner union. -/
structure HtmlValidateResponse where
  response : HtmlValidateInner
deriving DecidableEq, Repr

/-- Inner object of `EmailValidateResponseSchema`'s discriminated union. -/
structure EmailValidateInner where
  class_name : String
  email_handle : String
  error : String
  virus : String
deriving DecidableEq, Repr

/-- `EmailValidateResponseSchema`: wrapper holding the inner union. -/
structure EmailValidateResponse where
  response : EmailValidateInner
deriving DecidableEq, Repr

/-- Inner object of `ImgValidateResponseSchema`'s discriminated union
(tags from src/unnamed/part_001). -/
structure ImgValidateInner where
  class_name : String
  img_handle : String
  error : String
  virus : String
deriving DecidableEq, Repr

/-- `ImgValidateResponseSchema`: wrapper holding the inner union. -/
structure ImgValidateResponse where
  response : ImgValidateInner
deriving DecidableEq, Repr

/-- Inner object of `PdfValidateResponseSchema`'s discriminated union
(tags from src/src/models/pdf.ts). -/
structure PdfValidateInner where
  class_name : String
  pdf_handle : String
  error : String
  virus : String
deriving DecidableEq, Repr

/-- `PdfValidateResponseSchema`: wrapper holding the inner union. -/
structure PdfValidateResponse where
  response : PdfValidateInner
deriving DecidableEq, Repr

/-- `okHtml` (src/src/models/html.ts, lines 206–215): returns the HTML
handle on the `Ok` tag, throws `ValidationErrorException` on the `Error`
tag, `ValidationVirusException` on the `Virus` tag, and
`ValidationErrorException("Unknown validation response type")` on any other
tag. -/
def okHtml (r : HtmlValidateResponse) : Except MaraError String :=
  if r.response.class_name = "HtmlValidateResponseOk" then
    .ok r.response.html_handle
  else if r.response.class_name = "HtmlValidateResponseError" then
    .error (.validationError r.response.error)
  else if r.response.class_name = "HtmlValidateResponseVirus" then
    .error (.virusError r.response.virus)
  else
    .error (.validationError "Unknown validation response type")

/-- `okEmail` (src/src/models/email.ts, lines 331–340): the same four-way
branch over the email validation tags. -/
def okEmail (r : EmailValidateResponse) : Except MaraError String :=
  if r.response.class_name = "EmailValidateResponseOk" then
    .ok r.response.email_handle
  else if r.response.class_name = "EmailValidateResponseError" then
    .error (.validationError r.response.error)
  else if r.response.class_name = "EmailValidateResponseVirus" then
    .error (.virusError r.response.virus)
  else
    .error (.validationError "Unknown validation response type")

/-- Modelled from the spec: `okImg` is imported by flow.ts from
`../models/img` but that function's body is not among the provided sources;
per the spec the unwrapper "is reused identically across every content
kind", so it is the same four-way branch as `okHtml` / `okEmail` over the
image validation tags of `ImgValidateResponseSchema`. -/
def okImg (r : ImgValidateResponse) : Except MaraError String :=
  if r.response.class_name = "ImgValidateResponseOk" then
    .ok r.response.img_handle
  else if r.response.class_name = "ImgValidateResponseError" then
    .error (.validationError r.response.error)
  else if r.response.class_name = "ImgValidateResponseVirus" then
    .error (.virusError r.response.virus)
  else
    .error (.validationError "Unknown validation response type")

/-- Modelled from the spec: `okPdf` is imported by flow.ts from
`../models/pdf` but that function's body is not among the provided sources;
same four-way branch over the PDF validation tags of
`PdfValidateResponseSchema`. -/
def okPdf (r : PdfValidateResponse) : Except MaraError String :=
  if r.response.class_name = "PdfValidateResponseOk" then
    .ok r.response.pdf_handle
  else if r.response.class_name = "PdfValidateResponseError" then
    .error (.validationError r.response.error)
  else if r.response.class_name = "PdfValidateResponseVirus" then
    .error (.virusError r.response.virus)
  else
    .error (.validationError "Unknown validation response type")

/-! ### Job Client: `FetchWrapper.request` / `FetchWrapper.pollResult`
(src/src/shared/fetchWrapper.ts)

A single HTTP exchange is observed as a status, a status text and an
optional JSON body (`none` when `res.json()` rejects).  The body type `β`
and the zod parses (`parse` for the operation's result schema, `envParse`
for `HttpErrorResponseSchema`) are parameters of the embedding. -/

/-- One response as seen through `fetch`: `res.status`, `res.statusText`,
and the parsed JSON body (`none` when `res.json()` rejects). -/
structure HttpResponse (β : Type) where
  status : Nat
  statusText : String
  json : Option β
deriving DecidableEq, Repr

/-- `MAX_RETRIES` (src/src/shared/fetchWrapper.ts line 4). -/
def MAX_RETRIES : Nat := 120

/-- The shared failure branch of `request` and `pollResult`: read the body,
parse it as `HttpErrorResponseSchema` and throw `ApiErrorException` built by
`fromHttpResponse`; when reading or parsing fails, throw the generic
`Error("HTTP error! status: ...")`. -/
def parseErrorBranch {β : Type} (envParse : β → Option HttpErrorResponse)
    (res : HttpResponse β) : MaraError :=
  match res.json with
  | none => .httpError res.status res.statusText
  | some data =>
    match envParse data with
    | none => .httpError res.status res.statusText
    | some err => .apiError err.status_code err.api_error

/-- `FetchWrapper.request` (lines 64–101): on status 200 or 201 parse the
body against the operation's schema and return it (rethrowing the parse
failure otherwise); on any other status take the failure branch. -/
def request {β α : Type} (parse : β → Option α)
    (envParse : β → Option HttpErrorResponse)
    (res : HttpResponse β) : Except MaraError α :=
  if res.status = 200 ∨ res.status = 201 then
    match res.json with
    | none => .error .noJsonBody
    | some data =>
      match parse data with
      | some out => .ok out
      | none => .error .schemaError
  else
    .error (parseErrorBranch envParse res)

/-- `TaskCreatedResponseSchema`: the created-job descriptor `{job_id}`. -/
structure TaskCreatedResponse where
  job_id : String
deriving DecidableEq, Repr

/-- Submitting a job is a `POST` through `FetchWrapper.request` parsed
against `TaskCreatedResponseSchema` (e.g. `DataEp.mimeType`,
src/src/MaraDocsClient/dataEp.ts lines 131–135). -/
def submitJob {β : Type} (parse : β → Option TaskCreatedResponse)
    (envParse : β → Option HttpErrorResponse)
    (res : HttpResponse β) : Except MaraError TaskCreatedResponse :=
  request parse envParse res

/-- The loop body of `FetchWrapper.pollResult` (lines 107–151), driven by
the list of successive responses the server produces and carrying
`retry_count`.  Status 200: parse and return.  Status 202: increment
`retry_count`; throw the poll-timeout `Error` when it exceeds
`MAX_RETRIES`, otherwise poll again immediately.  Any other status: the
shared failure branch. -/
def pollResultAux {β α : Type} (parse : β → Option α)
    (envParse : β → Option HttpErrorResponse) :
    Nat → List (HttpResponse β) → Except MaraError α
  | _, [] => .error .noResponse
  | retry_count, res :: rest =>
    if res.status = 200 then
      match res.json with
      | none => .error .noJsonBody
      | some data =>
        match parse data with
        | some out => .ok out
        | none => .error .schemaError
    else if res.status = 202 then
      if retry_count + 1 > MAX_RETRIES then .error .pollTimeout
      else pollResultAux parse envParse (retry_count + 1) rest
    else
      .error (parseErrorBranch envParse res)

/-- `FetchWrapper.pollResult`: the loop entered with `retry_count = 0`. -/
def pollResult {β α : Type} (parse : β → Option α)
    (envParse : β → Option HttpErrorResponse)
    (responses : List (HttpResponse β)) : Except MaraError α :=
  pollResultAux parse envParse 0 responses

/-! ### Transfer Manager (src/src/MaraDocsClient/dataEp.ts)

The value a transfer produces and the sequence of percentages it passes to
`on_progress` are made explicit: a transfer function returns the list of
progress-callback arguments alongside its result. -/

/-- One `ProgressEvent` delivered to `xhr.upload.onprogress`:
`lengthComputable`, `loaded` and `total` (bytes). -/
structure XhrProgressEvent where
  lengthComputable : Bool
  loaded : Nat
  total : Nat
deriving DecidableEq, Repr

/-- The percentage `(event.loaded / event.total) * 100` computed by
`uploadWithXHR`. -/
def xhrPercent (e : XhrProgressEvent) : ℚ :=
  ((e.loaded : ℚ) / (e.total : ℚ)) * 100

/-- The arguments `DataEp.uploadWithXHR` (lines 46–90) passes to
`on_progress` over a successfully completing upload that delivers the given
progress events: for each event with `lengthComputable`, the percentage if
it is `< 100`; then `100` once from `xhr.onloadend`. -/
def uploadWithXHRCalls (events : List XhrProgressEvent) : List ℚ :=
  (events.filter fun e =>
      e.lengthComputable && decide (xhrPercent e < 100)).map xhrPercent
    ++ [100]

/-- The arguments `DataEp.upload` (lines 19–40) passes to `on_progress` on
the Node.js fallback path (`uploadWithFetch` reports nothing; `upload`
itself calls `on_progress(100)`). -/
def uploadWithFetchCalls : List ℚ := [100]

/-- A download response as seen by `DataEp.downloadBinary`: `response.ok`,
`response.status`, the parsed `Content-Length` header (`none` when the
header is absent or does not parse as an integer), whether `response.body`
is available as a stream, and the stream's chunks in arrival order. -/
structure DownloadResponse where
  ok : Bool
  status : Nat
  contentLength : Option Nat
  hasBody : Bool
  chunks : List (List Nat)
deriving DecidableEq, Repr

/-- The progress reports of `downloadBinary`'s read loop: after each chunk,
`(loaded / total) * 100` for the accumulated `loaded`. -/
def downloadProgressCalls (total : Nat) : List (List Nat) → Nat → List ℚ
  | [], _ => []
  | c :: cs, loaded =>
    let loaded' := loaded + c.length
    (((loaded' : ℚ) / (total : ℚ)) * 100) :: downloadProgressCalls total cs loaded'

/-- `DataEp.downloadBinary` (lines 233–275), returning the downloaded bytes
together with the `on_progress` argument sequence.  Non-success status:
throw `Error("Download failed: ...")`.  `!total || !response.body` (header
absent, unparsable, zero, or no stream): read the whole body in one step
with no progress.  Otherwise: read chunk by chunk, reporting after each
chunk, and assemble the result by copying the chunks in order. -/
def downloadBinary (res : DownloadResponse) : Except MaraError (List Nat × List ℚ) :=
  if res.ok then
    match res.contentLength with
    | none => .ok (res.chunks.flatten, [])
    | some total =>
      if total = 0 ∨ res.hasBody = false then
        .ok (res.chunks.flatten, [])
      else
        .ok (res.chunks.foldl (fun acc c => acc ++ c) [],
             downloadProgressCalls total res.chunks 0)
  else
    .error (.downloadError res.status)

/-! ### Pipeline Orchestrator (src/src/MaraDocsClient/flow.ts)

Handles are opaque strings.  The endpoint methods of `DataEp`, `ImgEp` and
`PdfEp` the flow calls are opaque collaborators (each one wraps a
submit-and-poll exchange specified elsewhere); the flow is embedded as a
function of an environment holding one `Except`-valued function per
endpoint. -/

/-- Handle to a validated image (`ImgHandleSchema`). -/
abbrev ImgHandle := String

/-- Handle to a validated PDF (`PdfHandleSchema`). -/
abbrev PdfHandle := String

/-- `ImgToPdfOptionsSchema` (src/unnamed/part_001): PDF conversion options;
the flow passes them through without inspecting them. -/
structure ImgToPdfOptions where
  img_quality : Nat := 70
  img_color : String := "original"
  max_dpi : Nat := 120
  min_dpi : Nat := 100
deriving DecidableEq, Repr

/-- `ImgFindDocumentsQuadrilateralSchema`: one detected document with its
quadrilateral and confidence. -/
structure ImgFindDocumentsQuadrilateral where
  quadrilateral : Quadrilateral
  confidence : ℚ
deriving DecidableEq, Repr

/-- `ImgFindDocumentsResponseSchema`: `{documents}`. -/
structure ImgFindDocumentsResponse where
  documents : List ImgFindDocumentsQuadrilateral
deriving DecidableEq, Repr

/-- `ImgExtractQuadrilateralResponseSchema`: `{img_handle}`. -/
structure ImgExtractQuadrilateralResponse where
  img_handle : ImgHandle
deriving DecidableEq, Repr

/-- `ImgToPdfResponseSchema`: `{pdf_handle}`. -/
structure ImgToPdfResponse where
  pdf_handle : PdfHandle
deriving DecidableEq, Repr

/-- One entry of a `PdfComposeRequest`: `{pdf_handle}`. -/
structure PdfComposeEntry where
  pdf_handle : PdfHandle
deriving DecidableEq, Repr

/-- `PdfComposeResponseSchema`: `{pdf_handle}`. -/
structure PdfComposeResponse where
  pdf_handle : PdfHandle
deriving DecidableEq, Repr

/-- `PdfOrientationResponseSchema`: the flow reads `rotated_pdf_handle`. -/
structure PdfOrientationResponse where
  rotated_pdf_handle : PdfHandle
deriving DecidableEq, Repr

/-- `PdfOcrResponseSchema` (`pdf.ocrToPdf`): `{pdf_handle}`. -/
structure PdfOcrResponse where
  pdf_handle : PdfHandle
deriving DecidableEq, Repr

/-- `PdfOptimizeResponseSchema`: `{pdf_handle}`. -/
structure PdfOptimizeResponse where
  pdf_handle : PdfHandle
deriving DecidableEq, Repr

/-- `DataUploadResponseSchema`: `{post_url, post_header,
unvalidated_file_handle}`; the flow reads `unvalidated_file_handle`. -/
structure DataUploadResponse where
  post_url : String
  post_header : List (String × String)
  unvalidated_file_handle : String
deriving DecidableEq, Repr

/-- A `File` as produced by `Flow.toFile`: name, MIME type and content
bytes. -/
structure File where
  name : String
  mimeType : String
  data : List Nat
deriving DecidableEq, Repr

/-- `FlowInput` (flow.ts line 12): a `File`, or raw bytes
(`Blob` / `ArrayBuffer` / `Buffer`, all of which `toFile` wraps the same
way). -/
inductive FlowInput where
  | file (f : File)
  | bytes (data : List Nat)
deriving DecidableEq, Repr

/-- `Flow.toFile` (lines 65–74): a `File` passes through unchanged; raw
bytes are wrapped into a `File` with the given name and MIME type. -/
def toFile (input : FlowInput) (filename : String) (mimeType : String) : File :=
  match input with
  | .file f => f
  | .bytes data => ⟨filename, mimeType, data⟩

/-- `OcrImgOptions` (flow.ts lines 17–32): `extractDocument` defaults to
`true`; `pdfOptions` is passed through to the conversion stage.  The
progress callback only feeds `DataEp.upload` and is modelled in the
transfer layer. -/
structure OcrImgOptions where
  extractDocument : Bool := true
  pdfOptions : Option ImgToPdfOptions := none
deriving DecidableEq, Repr

/-- `OcrPdfOptions` (flow.ts lines 37–46): optional password for encrypted
PDFs.  The progress callback only feeds `DataEp.upload`. -/
structure OcrPdfOptions where
  password : Option String := none
deriving DecidableEq, Repr

/-- The endpoint collaborators `Flow` calls, one `Except`-valued function
per endpoint method. -/
structure FlowEnv where
  upload : File → Except MaraError DataUploadResponse
  imgValidate : String → Except MaraError ImgValidateResponse
  pdfValidate : String → Option String → Except MaraError PdfValidateResponse
  findDocuments : ImgHandle → Except MaraError ImgFindDocumentsResponse
  extractQuadrilateral : ImgHandle → Quadrilateral →
    Except MaraError ImgExtractQuadrilateralResponse
  imgOcrToPdf : ImgHandle → Option ImgToPdfOptions →
    Except MaraError ImgToPdfResponse
  compose : List PdfComposeEntry → Except MaraError PdfComposeResponse
  orientation : PdfHandle → Except MaraError PdfOrientationResponse
  pdfOcrToPdf : PdfHandle → Except MaraError PdfOcrResponse
  optimize : PdfHandle → Except MaraError PdfOptimizeResponse

/-- The extraction loop of `ocrImgHandle` (lines 134–140): for each
detected document in order, extract the perspective-corrected sub-image and
push its `img_handle`. -/
def extractAll (env : FlowEnv) (imgHandle : ImgHandle) :
    List ImgFindDocumentsQuadrilateral → Except MaraError (List ImgHandle)
  | [] => .ok []
  | doc :: docs => do
    let extracted ← env.extractQuadrilateral imgHandle doc.quadrilateral
    let rest ← extractAll env imgHandle docs
    .ok (extracted.img_handle :: rest)

/-- The conversion loop of `ocrImgHandle` (lines 149–156): for each image
handle in order, submit OCR-to-PDF conversion and push its `pdf_handle`. -/
def ocrAll (env : FlowEnv) (pdfOptions : Option ImgToPdfOptions) :
    List ImgHandle → Except MaraError (List PdfHandle)
  | [] => .ok []
  | h :: hs => do
    let converted ← env.imgOcrToPdf h pdfOptions
    let rest ← ocrAll env pdfOptions hs
    .ok (converted.pdf_handle :: rest)

/-- `Flow.ocrImgHandle` (lines 123–173): optionally detect and extract
documents; fall back to the original image when nothing was pushed; convert
every image to a PDF; compose; orientation-correct; OCR; optimize. -/
def ocrImgHandle (env : FlowEnv) (imgHandle : ImgHandle)
    (options : OcrImgOptions) : Except MaraError PdfHandle := do
  let extracted ←
    if options.extractDocument then do
      let docs ← env.findDocuments imgHandle
      extractAll env imgHandle docs.documents
    else
      .ok []
  let imgHandles := if extracted.length = 0 then [imgHandle] else extracted
  let pdfHandles ← ocrAll env options.pdfOptions imgHandles
  let combinedPdf ← env.compose (pdfHandles.map fun pdf_handle => ⟨pdf_handle⟩)
  let orientedPdf ← env.orientation combinedPdf.pdf_handle
  let ocrPdfRes ← env.pdfOcrToPdf orientedPdf.rotated_pdf_handle
  let optimizedPdf ← env.optimize ocrPdfRes.pdf_handle
  .ok optimizedPdf.pdf_handle

/-- `Flow.ocrImg` (lines 91–108): upload, validate, unwrap with `okImg`,
then `ocrImgHandle`. -/
def ocrImg (env : FlowEnv) (input : FlowInput)
    (options : OcrImgOptions) : Except MaraError PdfHandle := do
  let file := toFile input "image.jpg" "image/jpeg"
  let uploaded ← env.upload file
  let validated ← env.imgValidate uploaded.unvalidated_file_handle
  let imgHandle ← okImg validated
  ocrImgHandle env imgHandle options

/-- `Flow.ocrPdfHandle` (lines 221–238): orientation correction, OCR,
optimization; the options are unused (`_options`). -/
def ocrPdfHandle (env : FlowEnv) (pdfHandle : PdfHandle)
    (_options : OcrPdfOptions) : Except MaraError PdfHandle := do
  let oriented ← env.orientation pdfHandle
  let ocr ← env.pdfOcrToPdf oriented.rotated_pdf_handle
  let optimized ← env.optimize ocr.pdf_handle
  .ok optimized.pdf_handle

/-- `Flow.ocrPdf` (lines 189–207): upload (forwarding the password to
validation), validate, unwrap with `okPdf`, then `ocrPdfHandle`. -/
def ocrPdf (env : FlowEnv) (input : FlowInput)
    (options : OcrPdfOptions) : Except MaraError PdfHandle := do
  let file := toFile input "document.pdf" "application/pdf"
  let uploaded ← env.upload file
  let validated ← env.pdfValidate uploaded.unvalidated_file_handle options.password
  let pdfHandle ← okPdf validated
  ocrPdfHandle env pdfHandle options

/-- Decidable equality of `Except` values, used to evaluate the embedding
on concrete inputs. -/
instance {ε α : Type} [DecidableEq ε] [DecidableEq α] : DecidableEq (Except ε α) := fun x y =>
  match x, y with
  | .ok a, .ok b =>
    if h : a = b then isTrue (by rw [h])
    else isFalse (fun hc => h (Except.ok.inj hc))
  | .error a, .error b =>
    if h : a = b then isTrue (by rw [h])
    else isFalse (fun hc => h (Except.error.inj hc))
  | .ok _, .error _ => isFalse (fun hc => Except.noConfusion hc)
  | .error _, .ok _ => isFalse (fun hc => Except.noConfusion hc)

/-- Concrete endpoint environment used to evaluate the pipeline embedding on
closed inputs: every endpoint succeeds and records the operation it applied
in the returned handle string. -/
def testFlowEnv : FlowEnv where
  upload := fun f => .ok ⟨"url", [], "U:" ++ f.name⟩
  imgValidate := fun u => .ok ⟨⟨"ImgValidateResponseOk", "I:" ++ u, "", ""⟩⟩
  pdfValidate := fun u _ => .ok ⟨⟨"PdfValidateResponseOk", "P:" ++ u, "", ""⟩⟩
  findDocuments := fun _ => .ok ⟨[]⟩
  extractQuadrilateral := fun h _ => .ok ⟨"E:" ++ h⟩
  imgOcrToPdf := fun h _ => .ok ⟨"O:" ++ h⟩
  compose := fun l => .ok ⟨"C:" ++ String.join (l.map (·.pdf_handle))⟩
  orientation := fun p => .ok ⟨"R:" ++ p⟩
  pdfOcrToPdf := fun p => .ok ⟨"T:" ++ p⟩
  optimize := fun p => .ok ⟨"Z:" ++ p⟩

/-! ### Theorems -/

theorem list_length_eq_four {α : Type} {l : List α} (h : l.length = 4) :
    ∃ a b c d, l = [a, b, c, d] := by
  rcases l with _ | ⟨a, _ | ⟨b, _ | ⟨c, _ | ⟨d, _ | ⟨e, t⟩⟩⟩⟩⟩ <;>
    simp only [List.length_cons, List.length_nil] at h
  · omega
  · omega
  · omega
  · omega
  · exact ⟨a, b, c, d, rfl⟩
  · omega

theorem fromUnsorted_ok_spec (points : List RelativePosition)
    (h4 : points.length = 4) :
    ∃ q, fromUnsorted points = .ok q ∧ quadrilateralOrdered q ∧
      (quadCorners q).Perm points := by
  have hperm := List.perm_insertionSort posLeY points
  have hsorted := List.sorted_insertionSort posLeY points
  have hlen : (List.insertionSort posLeY points).length = 4 := by
    rw [hperm.length_eq, h4]
  obtain ⟨a, b, c, d, hs4⟩ := list_length_eq_four hlen
  rw [hs4] at hperm hsorted
  simp only [List.sorted_cons, List.mem_cons, List.not_mem_nil, or_false,
    forall_eq_or_imp, forall_eq, List.sorted_nil, and_true] at hsorted
  obtain ⟨⟨hab, hac, had⟩, ⟨hbc, hbd⟩, hcd⟩ := hsorted
  have hbody : fromUnsorted points =
      .ok { top_left := (List.insertionSort posLeX [a, b]).getD 0 ⟨0, 0⟩
            top_right := (List.insertionSort posLeX [a, b]).getD 1 ⟨0, 0⟩
            bottom_right := (List.insertionSort posLeX [c, d]).getD 1 ⟨0, 0⟩
            bottom_left := (List.insertionSort posLeX [c, d]).getD 0 ⟨0, 0⟩ } := by
    unfold fromUnsorted
    rw [if_neg (by omega)]
    rw [hs4]
    rfl
  by_cases hx1 : posLeX a b
  · by_cases hx2 : posLeX c d
    · simp only [List.insertionSort, List.orderedInsert, hx1, hx2, if_true,
        List.getD_cons_zero, List.getD_cons_succ] at hbody
      refine ⟨_, hbody, ⟨hx1, hx2, hac, hbd⟩, ?_⟩
      exact (((List.Perm.swap c d []).cons b).cons a).trans hperm
    · simp only [List.insertionSort, List.orderedInsert, hx1, hx2, if_true, if_false,
        ite_false, List.getD_cons_zero, List.getD_cons_succ] at hbody
      refine ⟨_, hbody, ⟨hx1, le_of_not_le hx2, had, hbc⟩, ?_⟩
      exact hperm
  · by_cases hx2 : posLeX c d
    · simp only [List.insertionSort, List.orderedInsert, hx1, hx2, if_true, if_false,
        ite_false, List.getD_cons_zero, List.getD_cons_succ] at hbody
      refine ⟨_, hbody, ⟨le_of_not_le hx1, hx2, hbc, had⟩, ?_⟩
      exact ((List.Perm.swap a b [d, c]).trans
        (((List.Perm.swap c d []).cons b).cons a)).trans hperm
    · simp only [List.insertionSort, List.orderedInsert, hx1, hx2, if_false,
        ite_false, List.getD_cons_zero, List.getD_cons_succ] at hbody
      refine ⟨_, hbody, ⟨le_of_not_le hx1, le_of_not_le hx2, hbd, hac⟩, ?_⟩
      exact (List.Perm.swap a b [c, d]).trans hperm

/-- C6: for every list of 4 points with coordinates in [0,1] (hence for every
input permutation of the same 4 points), `fromUnsorted` succeeds and the
returned quadrilateral satisfies the corner-ordering invariant of
`QuadrilateralSchema`. -/
theorem fromUnsorted_always_ordered (points : List RelativePosition)
    (h4 : points.length = 4)
    (_hin : ∀ p ∈ points, 0 ≤ p.x ∧ p.x ≤ 1 ∧ 0 ≤ p.y ∧ p.y ≤ 1) :
    ∃ q, fromUnsorted points = .ok q ∧ quadrilateralOrdered q := by
  obtain ⟨q, h1, h2, -⟩ := fromUnsorted_ok_spec points h4
  exact ⟨q, h1, h2⟩

theorem fromUnsorted_always_ordered_witness :
    ∃ q, fromUnsorted [⟨0, 0⟩, ⟨1, 0⟩, ⟨1, 1⟩, ⟨0, 1⟩] = .ok q ∧
      quadrilateralOrdered q :=
  fromUnsorted_always_ordered _ (by decide) (by decide)

/-- C10: `fromUnsorted` throws for every input whose length is not 4, and
for length-4 inputs the four corner fields of the result are, as a
multiset, exactly the four input points. -/
theorem fromUnsorted_length_check_and_corners :
    (∀ points : List RelativePosition, points.length ≠ 4 →
      fromUnsorted points = .error "Quadrilateral must have 4 points") ∧
    (∀ points : List RelativePosition, points.length = 4 →
      ∃ q, fromUnsorted points = .ok q ∧ (quadCorners q).Perm points) := by
  constructor
  · intro points hne
    unfold fromUnsorted
    rw [if_pos hne]
  · intro points h4
    obtain ⟨q, h1, -, h3⟩ := fromUnsorted_ok_spec points h4
    exact ⟨q, h1, h3⟩

theorem fromUnsorted_length_check_and_corners_witness :
    fromUnsorted [⟨0, 0⟩] = .error "Quadrilateral must have 4 points" ∧
    ∃ q, fromUnsorted [⟨0, 0⟩, ⟨1, 0⟩, ⟨1, 1⟩, ⟨0, 1⟩] = .ok q ∧
      (quadCorners q).Perm [⟨0, 0⟩, ⟨1, 0⟩, ⟨1, 1⟩, ⟨0, 1⟩] :=
  ⟨fromUnsorted_length_check_and_corners.1 _ (by decide),
   fromUnsorted_length_check_and_corners.2 _ (by decide)⟩

/-- C2 counterexample: on an unrecognized tag the unwrapper does NOT throw
`ValidationError("unknown validation response type")` — the message the code
throws is capitalized differently: "Unknown validation response type". -/
theorem okHtml_unknown_message_counterexample :
    okHtml ⟨⟨"HtmlValidateResponseBogus", "h", "e", "v"⟩⟩ ≠
      .error (.validationError "unknown validation response type") ∧
    okHtml ⟨⟨"HtmlValidateResponseBogus", "h", "e", "v"⟩⟩ =
      .error (.validationError "Unknown validation response type") := by
  decide

/-- C2 (amended): each unwrapper returns the enclosed handle unmodified on
the `Ok` tag, throws `ValidationErrorException` with the original message on
the `Error` tag, `ValidationVirusException` with the virus message on the
`Virus` tag, throws `ValidationErrorException("Unknown validation response
type")` on every other tag, and never returns normally except on `Ok`. -/
theorem unwrap_four_way_branch :
    (∀ r : HtmlValidateResponse,
      (r.response.class_name = "HtmlValidateResponseOk" →
        okHtml r = .ok r.response.html_handle) ∧
      (r.response.class_name = "HtmlValidateResponseError" →
        okHtml r = .error (.validationError r.response.error)) ∧
      (r.response.class_name = "HtmlValidateResponseVirus" →
        okHtml r = .error (.virusError r.response.virus)) ∧
      (r.response.class_name ≠ "HtmlValidateResponseOk" →
        r.response.class_name ≠ "HtmlValidateResponseError" →
        r.response.class_name ≠ "HtmlValidateResponseVirus" →
        okHtml r = .error (.validationError "Unknown validation response type")) ∧
      (∀ h, okHtml r = .ok h →
        r.response.class_name = "HtmlValidateResponseOk" ∧ h = r.response.html_handle)) ∧
    (∀ r : EmailValidateResponse,
      (r.response.class_name = "EmailValidateResponseOk" →
        okEmail r = .ok r.response.email_handle) ∧
      (r.response.class_name = "EmailValidateResponseError" →
        okEmail r = .error (.validationError r.response.error)) ∧
      (r.response.class_name = "EmailValidateResponseVirus" →
        okEmail r = .error (.virusError r.response.virus)) ∧
      (r.response.class_name ≠ "EmailValidateResponseOk" →
        r.response.class_name ≠ "EmailValidateResponseError" →
        r.response.class_name ≠ "EmailValidateResponseVirus" →
        okEmail r = .error (.validationError "Unknown validation response type")) ∧
      (∀ h, okEmail r = .ok h →
        r.response.class_name = "EmailValidateResponseOk" ∧ h = r.response.email_handle)) ∧
    (∀ r : ImgValidateResponse,
      (r.response.class_name = "ImgValidateResponseOk" →
        okImg r = .ok r.response.img_handle) ∧
      (r.response.class_name = "ImgValidateResponseError" →
        okImg r = .error (.validationError r.response.error)) ∧
      (r.response.class_name = "ImgValidateResponseVirus" →
        okImg r = .error (.virusError r.response.virus)) ∧
      (r.response.class_name ≠ "ImgValidateResponseOk" →
        r.response.class_name ≠ "ImgValidateResponseError" →
        r.response.class_name ≠ "ImgValidateResponseVirus" →
        okImg r = .error (.validationError "Unknown validation response type")) ∧
      (∀ h, okImg r = .ok h →
        r.response.class_name = "ImgValidateResponseOk" ∧ h = r.response.img_handle)) ∧
    (∀ r : PdfValidateResponse,
      (r.response.class_name = "PdfValidateResponseOk" →
        okPdf r = .ok r.response.pdf_handle) ∧
      (r.response.class_name = "PdfValidateResponseError" →
        okPdf r = .error (.validationError r.response.error)) ∧
      (r.response.class_name = "PdfValidateResponseVirus" →
        okPdf r = .error (.virusError r.response.virus)) ∧
      (r.response.class_name ≠ "PdfValidateResponseOk" →
        r.response.class_name ≠ "PdfValidateResponseError" →
        r.response.class_name ≠ "PdfValidateResponseVirus" →
        okPdf r = .error (.validationError "Unknown validation response type")) ∧
      (∀ h, okPdf r = .ok h →
        r.response.class_name = "PdfValidateResponseOk" ∧ h = r.response.pdf_handle)) := by
  refine ⟨fun r => ?_, fun r => ?_, fun r => ?_, fun r => ?_⟩ <;>
    simp only [okHtml, okEmail, okImg, okPdf] <;>
    refine ⟨fun h1 => by simp [h1], fun h2 => ?_, fun h3 => ?_,
      fun n1 n2 n3 => by simp [n1, n2, n3], fun h hok => ?_⟩ <;>
    first
      | (split_ifs <;> simp_all)
      | (split_ifs at hok <;> simp_all)

theorem unwrap_four_way_branch_witness :
    okHtml ⟨⟨"HtmlValidateResponseOk", "handle7", "", ""⟩⟩ = .ok "handle7" ∧
    okEmail ⟨⟨"EmailValidateResponseError", "", "bad email", ""⟩⟩ =
      .error (.validationError "bad email") ∧
    okImg ⟨⟨"ImgValidateResponseVirus", "", "", "EICAR"⟩⟩ =
      .error (.virusError "EICAR") ∧
    okPdf ⟨⟨"PdfValidateResponseWeird", "", "", ""⟩⟩ =
      .error (.validationError "Unknown validation response type") :=
  ⟨(unwrap_four_way_branch.1 _).1 rfl,
   (unwrap_four_way_branch.2.1 _).2.1 rfl,
   (unwrap_four_way_branch.2.2.1 _).2.2.1 rfl,
   (unwrap_four_way_branch.2.2.2 _).2.2.2.1 (by decide) (by decide) (by decide)⟩

theorem pollResultAux_cons {β α : Type} (parse : β → Option α)
    (envParse : β → Option HttpErrorResponse) (c : Nat) (res : HttpResponse β)
    (rest : List (HttpResponse β)) :
    pollResultAux parse envParse c (res :: rest) =
      if res.status = 200 then
        match res.json with
        | none => .error .noJsonBody
        | some data =>
          match parse data with
          | some out => .ok out
          | none => .error .schemaError
      else if res.status = 202 then
        if c + 1 > MAX_RETRIES then .error .pollTimeout
        else pollResultAux parse envParse (c + 1) rest
      else .error (parseErrorBranch envParse res) := rfl

theorem pollResultAux_skip202 {β α : Type} (parse : β → Option α)
    (envParse : β → Option HttpErrorResponse) :
    ∀ (pre : List (HttpResponse β)) (c : Nat), (∀ r ∈ pre, r.status = 202) →
    c + pre.length ≤ MAX_RETRIES → ∀ rest,
    pollResultAux parse envParse c (pre ++ rest) =
      pollResultAux parse envParse (c + pre.length) rest := by
  intro pre
  induction pre with
  | nil => intro c _ _ rest; simp
  | cons r pre ih =>
    intro c hall hle rest
    have hr : r.status = 202 := hall r (by simp)
    have hn200 : ¬r.status = 200 := by rw [hr]; decide
    have hnceil : ¬c + 1 > MAX_RETRIES := by
      simp only [List.length_cons, MAX_RETRIES] at hle ⊢
      omega
    rw [List.cons_append, pollResultAux_cons, if_neg hn200, if_pos hr, if_neg hnceil,
      ih (c + 1) (fun x hx => hall x (by simp [hx]))
        (by simp only [List.length_cons] at hle; omega) rest]
    congr 1
    simp only [List.length_cons]
    omega

theorem pollResultAux_not_timeout_of_200 {β α : Type} (parse : β → Option α)
    (envParse : β → Option HttpErrorResponse) (c : Nat) (r : HttpResponse β)
    (rest : List (HttpResponse β)) (h200 : r.status = 200) :
    pollResultAux parse envParse c (r :: rest) ≠ .error .pollTimeout := by
  intro h
  rw [pollResultAux_cons, if_pos h200] at h
  cases hj : r.json with
  | none => simp [hj] at h
  | some b =>
    cases hp : parse b with
    | none => simp [hj, hp] at h
    | some out => simp [hj, hp] at h

theorem parseErrorBranch_ne_pollTimeout {β : Type}
    (envParse : β → Option HttpErrorResponse) (r : HttpResponse β) :
    parseErrorBranch envParse r ≠ .pollTimeout := by
  intro h
  cases hj : r.json with
  | none => simp [parseErrorBranch, hj] at h
  | some b =>
    cases he : envParse b with
    | none => simp [parseErrorBranch, hj, he] at h
    | some env => simp [parseErrorBranch, hj, he] at h

theorem pollResultAux_timeout_iff {β α : Type} (parse : β → Option α)
    (envParse : β → Option HttpErrorResponse) :
    ∀ (rs : List (HttpResponse β)) (c : Nat), c ≤ MAX_RETRIES →
    (pollResultAux parse envParse c rs = .error .pollTimeout ↔
      ∃ pre rest, rs = pre ++ rest ∧ pre.length = MAX_RETRIES + 1 - c ∧
        ∀ r ∈ pre, r.status = 202) := by
  intro rs
  induction rs with
  | nil =>
    intro c hc
    constructor
    · intro h; simp [pollResultAux] at h
    · rintro ⟨pre, rest, heq, hlen, -⟩
      obtain ⟨hpre, -⟩ := List.append_eq_nil.mp heq.symm
      subst hpre
      simp only [List.length_nil, MAX_RETRIES] at hlen
      simp only [MAX_RETRIES] at hc
      omega
  | cons r rest ih =>
    intro c hc
    by_cases h200 : r.status = 200
    · constructor
      · intro h
        exact absurd h (pollResultAux_not_timeout_of_200 parse envParse c r rest h200)
      · rintro ⟨pre, rest2, heq, hlen, hall⟩
        cases pre with
        | nil =>
          simp only [List.length_nil, MAX_RETRIES] at hlen
          simp only [MAX_RETRIES] at hc
          omega
        | cons p pre2 =>
          have hpr : p = r := by
            have := congrArg (fun l => l.head?) heq
            simpa using this.symm
          have := hall p (by simp)
          rw [hpr, h200] at this
          simp at this
    · by_cases h202 : r.status = 202
      · by_cases hceil : c + 1 > MAX_RETRIES
        · constructor
          · intro _
            refine ⟨[r], rest, rfl, ?_, by simp [h202]⟩
            simp only [List.length_cons, List.length_nil, MAX_RETRIES] at hc ⊢
            simp only [MAX_RETRIES] at hceil
            omega
          · intro _
            rw [pollResultAux_cons, if_neg h200, if_pos h202, if_pos hceil]
        · have hc1 : c + 1 ≤ MAX_RETRIES := by omega
          have hstep : pollResultAux parse envParse c (r :: rest) =
              pollResultAux parse envParse (c + 1) rest := by
            rw [pollResultAux_cons, if_neg h200, if_pos h202, if_neg hceil]
          rw [hstep, ih (c + 1) hc1]
          constructor
          · rintro ⟨pre2, rest2, heq, hlen, hall⟩
            refine ⟨r :: pre2, rest2, by rw [heq]; rfl, ?_, ?_⟩
            · simp only [List.length_cons, hlen, MAX_RETRIES] at *
              omega
            · intro x hx
              rcases List.mem_cons.mp hx with rfl | hx
              · exact h202
              · exact hall x hx
          · rintro ⟨pre, rest2, heq, hlen, hall⟩
            cases pre with
            | nil =>
              simp only [List.length_nil, MAX_RETRIES] at hlen
              simp only [MAX_RETRIES] at hc1
              omega
            | cons p pre2 =>
              have hpr : p = r ∧ rest = pre2 ++ rest2 := by
                rw [List.cons_append] at heq
                exact ⟨(List.cons.inj heq).1.symm, (List.cons.inj heq).2⟩
              refine ⟨pre2, rest2, hpr.2, ?_, fun x hx => hall x (by simp [hx])⟩
              simp only [List.length_cons, MAX_RETRIES] at hlen ⊢
              omega
      · constructor
        · intro h
          have hval : pollResultAux parse envParse c (r :: rest) =
              .error (parseErrorBranch envParse r) := by
            rw [pollResultAux_cons, if_neg h200, if_neg h202]
          rw [hval] at h
          exact False.elim (parseErrorBranch_ne_pollTimeout envParse r (Except.error.inj h))
        · rintro ⟨pre, rest2, heq, hlen, hall⟩
          cases pre with
          | nil =>
            simp only [List.length_nil, MAX_RETRIES] at hlen
            simp only [MAX_RETRIES] at hc
            omega
          | cons p pre2 =>
            have hpr : p = r := by
              have := congrArg (fun l => l.head?) heq
              simpa using this.symm
            exact False.elim (h202 (hpr ▸ hall p (by simp)))

/-- C1: `pollResult` returns the parsed 200 body whenever the server
responds 200 after at most `MAX_RETRIES` 202s; it fails with the
poll-timeout error exactly when the server responds 202 more than
`MAX_RETRIES` (120) consecutive times; and each 202 below the ceiling only
increments the attempt counter and polls again immediately. -/
theorem pollResult_spec {β α : Type} (parse : β → Option α)
    (envParse : β → Option HttpErrorResponse) :
    (∀ (pre : List (HttpResponse β)) (res : HttpResponse β)
        (rest : List (HttpResponse β)) (b : β) (out : α),
      (∀ r ∈ pre, r.status = 202) → pre.length ≤ MAX_RETRIES →
      res.status = 200 → res.json = some b → parse b = some out →
      pollResult parse envParse (pre ++ res :: rest) = .ok out) ∧
    (∀ rs : List (HttpResponse β),
      pollResult parse envParse rs = .error .pollTimeout ↔
        ∃ pre rest, rs = pre ++ rest ∧ pre.length = MAX_RETRIES + 1 ∧
          ∀ r ∈ pre, r.status = 202) ∧
    (∀ (c : Nat) (r : HttpResponse β) (rest : List (HttpResponse β)),
      c + 1 ≤ MAX_RETRIES → r.status = 202 →
      pollResultAux parse envParse c (r :: rest) =
        pollResultAux parse envParse (c + 1) rest) := by
  refine ⟨?_, ?_, ?_⟩
  · intro pre res rest b out hall hlen h200 hjson hparse
    unfold pollResult
    rw [pollResultAux_skip202 parse envParse pre 0 hall (by omega) (res :: rest),
      pollResultAux_cons, if_pos h200, hjson]
    simp [hparse]
  · intro rs
    have := pollResultAux_timeout_iff parse envParse rs 0 (by omega)
    unfold pollResult
    simpa using this
  · intro c r rest hc hr
    rw [pollResultAux_cons, if_neg (by omega), if_pos hr, if_neg (by omega)]

theorem pollResult_spec_witness :
    pollResult (β := Nat) (α := Nat) some (fun _ => none)
      [⟨202, "Accepted", none⟩, ⟨200, "OK", some 7⟩] = .ok 7 ∧
    pollResult (β := Nat) (α := Nat) some (fun _ => none)
      (List.replicate (MAX_RETRIES + 1) ⟨202, "Accepted", none⟩) =
      .error .pollTimeout ∧
    pollResultAux (β := Nat) (α := Nat) some (fun _ => none) 0
      [⟨202, "Accepted", none⟩] =
      pollResultAux (β := Nat) (α := Nat) some (fun _ => none) 1 [] :=
  ⟨(pollResult_spec some (fun _ => none)).1 [⟨202, "Accepted", none⟩]
      ⟨200, "OK", some 7⟩ [] 7 7 (by decide) (by decide) rfl rfl rfl,
   ((pollResult_spec some (fun _ => none)).2.1 _).mpr
      ⟨List.replicate (MAX_RETRIES + 1) ⟨202, "Accepted", none⟩, [],
        (List.append_nil _).symm, List.length_replicate _ _,
        fun r hr => by rw [List.eq_of_mem_replicate hr]⟩,
   (pollResult_spec some (fun _ => none)).2.2 0 ⟨202, "Accepted", none⟩ []
      (by decide) rfl⟩

/-- C8 counterexample: a 2xx status other than 200/201 (here 204) with a
body that parses as the created-job descriptor does NOT make the submit
succeed — `request` only treats 200 and 201 as success and any other
status, 2xx included, takes the failure branch. -/
theorem submitJob_2xx_counterexample :
    submitJob (β := TaskCreatedResponse) some (fun _ => none)
      ⟨204, "No Content", some ⟨"j1"⟩⟩ = .error (.httpError 204 "No Content") ∧
    submitJob (β := TaskCreatedResponse) some (fun _ => none)
      ⟨204, "No Content", some ⟨"j1"⟩⟩ ≠ .ok ⟨"j1"⟩ := by
  decide

/-- C8 (amended): a submit returns the parsed created-job descriptor
exactly on status 200 or 201; on every other status — observed by a submit,
or by a poll when it is neither 200 nor 202 — the operation fails with
`ApiErrorException` preserving the envelope's numeric code when the body
parses as the error envelope, and with the generic
`Error("HTTP error! status: ...")` carrying the raw status otherwise. -/
theorem request_error_envelope_spec {β α : Type} (parse : β → Option α)
    (envParse : β → Option HttpErrorResponse) :
    (∀ (res : HttpResponse β) (taskParse : β → Option TaskCreatedResponse)
        (b : β) (t : TaskCreatedResponse),
      (res.status = 200 ∨ res.status = 201) → res.json = some b →
      taskParse b = some t → submitJob taskParse envParse res = .ok t) ∧
    (∀ res : HttpResponse β, ¬(res.status = 200 ∨ res.status = 201) →
      request parse envParse res = .error (parseErrorBranch envParse res)) ∧
    (∀ (res : HttpResponse β) (b : β) (env : HttpErrorResponse),
      res.json = some b → envParse b = some env →
      parseErrorBranch envParse res = .apiError env.status_code env.api_error) ∧
    (∀ (res : HttpResponse β) (b : β), res.json = some b → envParse b = none →
      parseErrorBranch envParse res = .httpError res.status res.statusText) ∧
    (∀ res : HttpResponse β, res.json = none →
      parseErrorBranch envParse res = .httpError res.status res.statusText) ∧
    (∀ (c : Nat) (res : HttpResponse β) (rest : List (HttpResponse β)),
      res.status ≠ 200 → res.status ≠ 202 →
      pollResultAux parse envParse c (res :: rest) =
        .error (parseErrorBranch envParse res)) := by
  refine ⟨?_, ?_, ?_, ?_, ?_, ?_⟩
  · intro res taskParse b t hst hjson hparse
    unfold submitJob request
    rw [if_pos hst, hjson]
    simp [hparse]
  · intro res hst
    unfold request
    rw [if_neg hst]
  · intro res b env hjson henv
    unfold parseErrorBranch
    rw [hjson]
    simp [henv]
  · intro res b hjson henv
    unfold parseErrorBranch
    rw [hjson]
    simp [henv]
  · intro res hjson
    unfold parseErrorBranch
    rw [hjson]
  · intro c res rest h200 h202
    rw [pollResultAux_cons, if_neg h200, if_neg h202]

theorem request_error_envelope_spec_witness :
    submitJob (β := TaskCreatedResponse) some (fun _ => none)
      ⟨201, "Created", some ⟨"j2"⟩⟩ = .ok ⟨"j2"⟩ ∧
    request (β := Option HttpErrorResponse) (α := Nat) (fun _ => none) id
      ⟨403, "Forbidden", some (some ⟨403, ⟨200, "INVALID_SECRET_KEY", "bad key"⟩⟩)⟩ =
      .error (.apiError 403 ⟨200, "INVALID_SECRET_KEY", "bad key"⟩) ∧
    pollResultAux (β := Nat) (α := Nat) some (fun _ => none) 0
      [⟨500, "Internal Server Error", none⟩] =
      .error (.httpError 500 "Internal Server Error") :=
  ⟨(request_error_envelope_spec (β := TaskCreatedResponse) (α := TaskCreatedResponse)
      some (fun _ => none)).1 ⟨201, "Created", some ⟨"j2"⟩⟩ some ⟨"j2"⟩ ⟨"j2"⟩
      (Or.inr rfl) rfl rfl,
   by
    rw [(request_error_envelope_spec (β := Option HttpErrorResponse) (α := Nat)
        (fun _ => none) id).2.1 _ (by decide),
      (request_error_envelope_spec (β := Option HttpErrorResponse) (α := Nat)
        (fun _ => none) id).2.2.1 _ (some ⟨403, ⟨200, "INVALID_SECRET_KEY", "bad key"⟩⟩)
        ⟨403, ⟨200, "INVALID_SECRET_KEY", "bad key"⟩⟩ rfl rfl],
   by
    rw [(request_error_envelope_spec (β := Nat) (α := Nat) some (fun _ => none)).2.2.2.2.2
        0 ⟨500, "Internal Server Error", none⟩ [] (by decide) (by decide),
      (request_error_envelope_spec (β := Nat) (α := Nat) some
        (fun _ => none)).2.2.2.2.1 ⟨500, "Internal Server Error", none⟩ rfl]⟩

theorem foldl_append_eq_flatten {α : Type} :
    ∀ (cs : List (List α)) (acc : List α),
      cs.foldl (fun a c => a ++ c) acc = acc ++ cs.flatten := by
  intro cs
  induction cs with
  | nil => intro acc; simp
  | cons c cs ih => intro acc; simp [ih, List.append_assoc]

theorem downloadProgressCalls_eq_scanl (t : Nat) :
    ∀ (cs : List (List Nat)) (acc : Nat),
      downloadProgressCalls t cs acc =
        (List.scanl (· + ·) acc (cs.map List.length)).tail.map
          (fun s => ((s : ℚ) / (t : ℚ)) * 100) := by
  intro cs
  induction cs with
  | nil => intro acc; simp [downloadProgressCalls]
  | cons c cs ih =>
    intro acc
    simp only [downloadProgressCalls, List.map_cons, List.scanl_cons, List.tail_cons, ih]
    cases hcs : cs.map List.length with
    | nil => simp
    | cons x xs => simp [List.scanl_cons]

theorem ratPercent_mono {t a b : Nat} (ht : 0 < t) (h : a ≤ b) :
    ((a : ℚ) / (t : ℚ)) * 100 ≤ ((b : ℚ) / (t : ℚ)) * 100 := by
  have ht' : (0 : ℚ) < (t : ℚ) := by exact_mod_cast ht
  have h' : (a : ℚ) ≤ (b : ℚ) := by exact_mod_cast h
  gcongr

theorem ratPercent_le_100 {t a : Nat} (ht : 0 < t) (h : a ≤ t) :
    ((a : ℚ) / (t : ℚ)) * 100 ≤ 100 := by
  have ht' : (0 : ℚ) < (t : ℚ) := by exact_mod_cast ht
  have h1 : (a : ℚ) / (t : ℚ) ≤ 1 := (div_le_one ht').mpr (by exact_mod_cast h)
  calc ((a : ℚ) / (t : ℚ)) * 100 ≤ 1 * 100 :=
        mul_le_mul_of_nonneg_right h1 (by norm_num)
    _ = 100 := by norm_num

theorem ratPercent_nonneg {t a : Nat} : 0 ≤ ((a : ℚ) / (t : ℚ)) * 100 := by
  positivity

theorem downloadProgressCalls_props {t : Nat} (ht : 0 < t) :
    ∀ (cs : List (List Nat)) (acc : Nat), acc + (cs.map List.length).sum ≤ t →
      List.Pairwise (· ≤ ·) (downloadProgressCalls t cs acc) ∧
      (∀ p ∈ downloadProgressCalls t cs acc,
        ((acc : ℚ) / (t : ℚ)) * 100 ≤ p ∧ 0 ≤ p ∧ p ≤ 100) ∧
      (cs ≠ [] → (downloadProgressCalls t cs acc).getLast? =
        some ((((acc + (cs.map List.length).sum : Nat) : ℚ) / (t : ℚ)) * 100)) := by
  intro cs
  induction cs with
  | nil => intro acc _; simp [downloadProgressCalls]
  | cons c cs ih =>
    intro acc hle
    have hle' : acc + c.length + (cs.map List.length).sum ≤ t := by
      simp only [List.map_cons, List.sum_cons] at hle
      omega
    obtain ⟨ihp, ihm, ihl⟩ := ih (acc + c.length) hle'
    have hmono : ((acc : ℚ) / (t : ℚ)) * 100 ≤
        (((acc + c.length : Nat) : ℚ) / (t : ℚ)) * 100 :=
      ratPercent_mono ht (by omega)
    have hub : (((acc + c.length : Nat) : ℚ) / (t : ℚ)) * 100 ≤ 100 :=
      ratPercent_le_100 ht (by omega)
    refine ⟨?_, ?_, ?_⟩
    · refine List.pairwise_cons.mpr ⟨?_, ihp⟩
      intro p hp
      have := (ihm p hp).1
      calc (((acc + c.length : Nat) : ℚ) / (t : ℚ)) * 100 ≤ _ := by
            push_cast at this ⊢
            convert this using 3 <;> push_cast <;> ring
        _ = p := rfl
    · intro p hp
      rcases List.mem_cons.mp hp with rfl | hp
      · exact ⟨by push_cast; push_cast at hmono; convert hmono using 3 <;> ring,
          ratPercent_nonneg, by push_cast; push_cast at hub; convert hub using 2 <;> ring⟩
      · have := ihm p hp
        refine ⟨le_trans ?_ this.1, this.2⟩
        push_cast at hmono ⊢
        convert hmono using 3 <;> ring
    · intro _
      cases hcs : cs with
      | nil =>
        simp only [hcs, downloadProgressCalls, List.map_cons, List.map_nil,
          List.sum_cons, List.sum_nil, List.getLast?_singleton]
        norm_num
      | cons c2 cs2 =>
        have hne : downloadProgressCalls t (c2 :: cs2) (acc + c.length) ≠ [] := by
          simp [downloadProgressCalls]
        have := ihl (by simp [hcs])
        rw [hcs] at this
        simp only [downloadProgressCalls] at this ⊢
        rw [List.getLast?_cons_cons, this]
        congr 2
        simp only [List.map_cons, List.sum_cons]
        push_cast
        ring

theorem downloadBinary_eval_some (res : DownloadResponse) (t : Nat)
    (hok : res.ok = true) (hcl : res.contentLength = some t) :
    downloadBinary res =
      if t = 0 ∨ res.hasBody = false then .ok (res.chunks.flatten, [])
      else .ok (res.chunks.foldl (fun acc c => acc ++ c) [],
        downloadProgressCalls t res.chunks 0) := by
  unfold downloadBinary
  rw [if_pos hok, hcl]

/-- C9: a successful download that advertises a total length returns the
in-order concatenation of the received chunks (so the byte count is the sum
of the chunk lengths) and reports `bytesReceived / total * 100` after each
chunk; with no advertised length the whole body is returned in one step
with no progress calls. -/
theorem downloadBinary_stream_spec :
    (∀ (res : DownloadResponse) (t : Nat), res.ok = true →
      res.contentLength = some t → t ≠ 0 → res.hasBody = true →
      downloadBinary res = .ok (res.chunks.flatten,
        (List.scanl (· + ·) (0 : Nat) (res.chunks.map List.length)).tail.map
          (fun s => ((s : ℚ) / (t : ℚ)) * 100)) ∧
      res.chunks.flatten.length = (res.chunks.map List.length).sum) ∧
    (∀ res : DownloadResponse, res.ok = true → res.contentLength = none →
      downloadBinary res = .ok (res.chunks.flatten, [])) := by
  constructor
  · intro res t hok hcl ht hbody
    constructor
    · rw [downloadBinary_eval_some res t hok hcl,
        if_neg (by simp [ht, hbody]),
        foldl_append_eq_flatten res.chunks [], List.nil_append,
        downloadProgressCalls_eq_scanl]
    · exact List.length_flatten res.chunks
  · intro res hok hcl
    unfold downloadBinary
    rw [if_pos hok, hcl]

theorem downloadBinary_stream_spec_witness :
    downloadBinary ⟨true, 200, some 6, true, [[10, 20, 30], [40], [50, 60]]⟩ =
      .ok ([10, 20, 30, 40, 50, 60],
        (List.scanl (· + ·) (0 : Nat) ([[10, 20, 30], [40], [50, 60]].map List.length)).tail.map
          (fun s => ((s : ℚ) / ((6 : Nat) : ℚ)) * 100)) ∧
    downloadBinary ⟨true, 200, none, true, [[10, 20, 30]]⟩ = .ok ([10, 20, 30], []) :=
  ⟨(downloadBinary_stream_spec.1
      ⟨true, 200, some 6, true, [[10, 20, 30], [40], [50, 60]]⟩ 6 rfl rfl
      (by decide) rfl).1,
   downloadBinary_stream_spec.2 ⟨true, 200, none, true, [[10, 20, 30]]⟩ rfl rfl⟩

/-- C7 counterexample: a download that completes successfully without an
advertised total length invokes the progress callback not at all, so its
call sequence has no final call of exactly 100. -/
theorem downloadBinary_no_final_100_counterexample :
    downloadBinary ⟨true, 200, none, true, [[1, 2, 3]]⟩ = .ok ([1, 2, 3], []) ∧
    (([] : List ℚ).getLast? ≠ some 100) := by
  decide

/-- C7 (amended): over every completed transfer the progress-callback
sequence is non-decreasing with all values in [0, 100]; uploads (under both
strategies) and downloads that advertise a total length and deliver it in
full end with a final call of exactly 100; a download with no advertised
length reports no progress at all. -/
theorem progress_monotone_spec :
    (∀ (events : List XhrProgressEvent) (T : Nat), 0 < T →
      (∀ e ∈ events, e.total = T ∧ e.loaded ≤ T) →
      List.Pairwise (fun a b => a.loaded ≤ b.loaded) events →
      List.Pairwise (· ≤ ·) (uploadWithXHRCalls events) ∧
      (∀ p ∈ uploadWithXHRCalls events, 0 ≤ p ∧ p ≤ 100) ∧
      (uploadWithXHRCalls events).getLast? = some 100) ∧
    (List.Pairwise (· ≤ ·) uploadWithFetchCalls ∧
      (∀ p ∈ uploadWithFetchCalls, 0 ≤ p ∧ p ≤ 100) ∧
      uploadWithFetchCalls.getLast? = some 100) ∧
    (∀ (res : DownloadResponse) (t : Nat) (bytes : List Nat) (calls : List ℚ),
      res.ok = true → res.contentLength = some t → t ≠ 0 → res.hasBody = true →
      (res.chunks.map List.length).sum = t →
      downloadBinary res = .ok (bytes, calls) →
      List.Pairwise (· ≤ ·) calls ∧ (∀ p ∈ calls, 0 ≤ p ∧ p ≤ 100) ∧
      calls.getLast? = some 100) ∧
    (∀ (res : DownloadResponse) (bytes : List Nat) (calls : List ℚ),
      res.ok = true → res.contentLength = none →
      downloadBinary res = .ok (bytes, calls) → calls = []) := by
  refine ⟨?_, ?_, ?_, ?_⟩
  · intro events T hT hmem hpw
    have hpwf := hpw.sublist (List.filter_sublist
      (p := fun e => e.lengthComputable && decide (xhrPercent e < 100)) events)
    have hmap : List.Pairwise (· ≤ ·)
        ((events.filter fun e =>
          e.lengthComputable && decide (xhrPercent e < 100)).map xhrPercent) := by
      rw [List.pairwise_map]
      refine hpwf.imp_of_mem ?_
      intro a b ha hb hab
      have haT := (hmem a (List.mem_of_mem_filter ha)).1
      have hbT := (hmem b (List.mem_of_mem_filter hb)).1
      unfold xhrPercent
      rw [haT, hbT]
      exact ratPercent_mono hT hab
    have hbound : ∀ p ∈ (events.filter fun e =>
        e.lengthComputable && decide (xhrPercent e < 100)).map xhrPercent,
        0 ≤ p ∧ p ≤ 100 := by
      intro p hp
      obtain ⟨e, he, rfl⟩ := List.mem_map.mp hp
      have heT := (hmem e (List.mem_of_mem_filter he)).1
      have heL := (hmem e (List.mem_of_mem_filter he)).2
      unfold xhrPercent
      rw [heT]
      exact ⟨ratPercent_nonneg, ratPercent_le_100 hT heL⟩
    refine ⟨?_, ?_, List.getLast?_concat _⟩
    · rw [uploadWithXHRCalls, List.pairwise_append]
      refine ⟨hmap, List.pairwise_singleton _ _, ?_⟩
      intro x hx y hy
      rw [List.mem_singleton] at hy
      subst hy
      exact (hbound x hx).2
    · intro p hp
      rcases List.mem_append.mp hp with hp | hp
      · exact hbound p hp
      · rw [List.mem_singleton] at hp
        subst hp
        norm_num
  · refine ⟨?_, ?_, ?_⟩ <;> simp [uploadWithFetchCalls]
  · intro res t bytes calls hok hcl ht hbody hsum hdb
    rw [downloadBinary_eval_some res t hok hcl,
      if_neg (by simp [ht, hbody])] at hdb
    obtain ⟨-, hcalls⟩ := Prod.mk.inj (Except.ok.inj hdb)
    subst hcalls
    have htpos : 0 < t := Nat.pos_of_ne_zero ht
    obtain ⟨hp, hm, hl⟩ := downloadProgressCalls_props htpos res.chunks 0 (by omega)
    have hne : res.chunks ≠ [] := by
      intro h
      rw [h] at hsum
      simp at hsum
      exact ht hsum.symm
    refine ⟨hp, fun p hp' => (hm p hp').2, ?_⟩
    rw [hl hne]
    have htQ : ((t : ℚ)) ≠ 0 := by exact_mod_cast ht
    rw [Nat.zero_add, hsum, div_self htQ]
    norm_num
  · intro res bytes calls hok hcl hdb
    unfold downloadBinary at hdb
    rw [if_pos hok, hcl] at hdb
    exact (Prod.mk.inj (Except.ok.inj hdb)).2.symm

theorem progress_monotone_spec_witness :
    (List.Pairwise (· ≤ ·) (uploadWithXHRCalls [⟨true, 1, 2⟩, ⟨true, 2, 2⟩]) ∧
      (∀ p ∈ uploadWithXHRCalls [⟨true, 1, 2⟩, ⟨true, 2, 2⟩], 0 ≤ p ∧ p ≤ 100) ∧
      (uploadWithXHRCalls [⟨true, 1, 2⟩, ⟨true, 2, 2⟩]).getLast? = some 100) ∧
    (List.Pairwise (· ≤ ·) ([50, 100] : List ℚ) ∧
      (∀ p ∈ ([50, 100] : List ℚ), 0 ≤ p ∧ p ≤ 100) ∧
      ([50, 100] : List ℚ).getLast? = some 100) :=
  ⟨progress_monotone_spec.1 [⟨true, 1, 2⟩, ⟨true, 2, 2⟩] 2 (by decide)
      (by decide) (by decide),
   progress_monotone_spec.2.2.1 ⟨true, 200, some 4, true, [[1, 2], [3, 4]]⟩ 4
      [1, 2, 3, 4] [50, 100] rfl rfl (by decide) rfl (by decide)
      (by norm_num [downloadBinary, downloadProgressCalls])⟩

@[simp]
theorem exceptBind_ok {ε α β' : Type} (a : α) (f : α → Except ε β') :
    (Except.ok a : Except ε α) >>= f = f a := rfl

@[simp]
theorem exceptBind_error {ε α β' : Type} (e : ε) (f : α → Except ε β') :
    (Except.error e : Except ε α) >>= f = .error e := rfl

@[simp]
theorem exceptBindFn_ok {ε α β' : Type} (a : α) (f : α → Except ε β') :
    (Except.ok a : Except ε α).bind f = f a := rfl

@[simp]
theorem exceptBindFn_error {ε α β' : Type} (e : ε) (f : α → Except ε β') :
    (Except.error e : Except ε α).bind f = .error e := rfl

theorem extractAll_map (env : FlowEnv) (h : ImgHandle)
    (fE : Quadrilateral → ImgHandle)
    (hE : ∀ q, env.extractQuadrilateral h q = .ok ⟨fE q⟩) :
    ∀ docs : List ImgFindDocumentsQuadrilateral,
      extractAll env h docs = .ok (docs.map fun d => fE d.quadrilateral) := by
  intro docs
  induction docs with
  | nil => rfl
  | cons d ds ih => simp [extractAll, hE, ih]

theorem ocrAll_map (env : FlowEnv) (o : Option ImgToPdfOptions)
    (fO : ImgHandle → PdfHandle)
    (hO : ∀ i, env.imgOcrToPdf i o = .ok ⟨fO i⟩) :
    ∀ hs : List ImgHandle, ocrAll env o hs = .ok (hs.map fO) := by
  intro hs
  induction hs with
  | nil => rfl
  | cons h hs ih => simp [ocrAll, hO, ih]

/-- C3: when document extraction is disabled, or detection returns zero
quadrilaterals, `ocrImgHandle` runs the rest of the pipeline on exactly the
original image handle: one conversion, a composition of exactly that one
converted PDF, then orientation, OCR and optimization — zero detection
results never abort the pipeline. -/
theorem ocrImgHandle_zero_detection (env : FlowEnv) (h : ImgHandle)
    (options : OcrImgOptions)
    (hzero : options.extractDocument = false ∨ env.findDocuments h = .ok ⟨[]⟩) :
    ocrImgHandle env h options = (do
      let r ← env.imgOcrToPdf h options.pdfOptions
      let c ← env.compose [⟨r.pdf_handle⟩]
      let o ← env.orientation c.pdf_handle
      let x ← env.pdfOcrToPdf o.rotated_pdf_handle
      let z ← env.optimize x.pdf_handle
      .ok z.pdf_handle) := by
  rcases hzero with hfalse | hnone
  · unfold ocrImgHandle
    rw [hfalse]
    cases hr : env.imgOcrToPdf h options.pdfOptions <;> simp [ocrAll, hr]
  · unfold ocrImgHandle
    cases hopt : options.extractDocument
    · cases hr : env.imgOcrToPdf h options.pdfOptions <;> simp [ocrAll, hr]
    · cases hr : env.imgOcrToPdf h options.pdfOptions <;>
        simp [hnone, extractAll, ocrAll, hr]

theorem ocrImgHandle_zero_detection_witness :
    (ocrImgHandle testFlowEnv "img" {} = (do
      let r ← testFlowEnv.imgOcrToPdf "img" ({} : OcrImgOptions).pdfOptions
      let c ← testFlowEnv.compose [⟨r.pdf_handle⟩]
      let o ← testFlowEnv.orientation c.pdf_handle
      let x ← testFlowEnv.pdfOcrToPdf o.rotated_pdf_handle
      let z ← testFlowEnv.optimize x.pdf_handle
      .ok z.pdf_handle)) ∧
    ocrImgHandle testFlowEnv "img" {} = .ok "Z:T:R:C:O:img" :=
  ⟨ocrImgHandle_zero_detection testFlowEnv "img" {} (Or.inr rfl), by decide⟩

/-- C4: with detection enabled and N ≥ 1 detected documents, each
quadrilateral is extracted in detection order, each extracted image is
independently converted to exactly one PDF handle (order preserved), and
the N PDF handles are composed in that same list order before the
orientation / OCR / optimize tail. -/
theorem ocrImgHandle_fanout_fanin
    (env : FlowEnv) (h : ImgHandle) (options : OcrImgOptions)
    (docs : List ImgFindDocumentsQuadrilateral)
    (fE : Quadrilateral → ImgHandle) (fO : ImgHandle → PdfHandle)
    (fC : List PdfComposeEntry → PdfHandle) (fR : PdfHandle → PdfHandle)
    (fX : PdfHandle → PdfHandle) (fZ : PdfHandle → PdfHandle)
    (hopt : options.extractDocument = true)
    (hfind : env.findDocuments h = .ok ⟨docs⟩) (hne : docs ≠ [])
    (hE : ∀ q, env.extractQuadrilateral h q = .ok ⟨fE q⟩)
    (hO : ∀ i, env.imgOcrToPdf i options.pdfOptions = .ok ⟨fO i⟩)
    (hC : ∀ l, env.compose l = .ok ⟨fC l⟩)
    (hR : ∀ p, env.orientation p = .ok ⟨fR p⟩)
    (hX : ∀ p, env.pdfOcrToPdf p = .ok ⟨fX p⟩)
    (hZ : ∀ p, env.optimize p = .ok ⟨fZ p⟩) :
    ocrImgHandle env h options = .ok (fZ (fX (fR (fC
      ((docs.map fun d => fO (fE d.quadrilateral)).map
        fun pdf_handle => ⟨pdf_handle⟩))))) := by
  unfold ocrImgHandle
  rw [hopt]
  simp [hfind, extractAll_map env h fE hE, ocrAll_map env options.pdfOptions fO hO,
    hC, hR, hX, hZ, hne, List.map_map, Function.comp]
  rfl

theorem ocrImgHandle_fanout_fanin_witness :
    ocrImgHandle
      { testFlowEnv with
        findDocuments := fun _ =>
          .ok ⟨[⟨⟨⟨0, 0⟩, ⟨1, 0⟩, ⟨1, 1⟩, ⟨0, 1⟩⟩, 1⟩,
                ⟨⟨⟨0, 0⟩, ⟨1, 0⟩, ⟨1, 1⟩, ⟨0, 1⟩⟩, 0⟩]⟩ }
      "img" {} = .ok "Z:T:R:C:O:E:imgO:E:img" := by
  rw [ocrImgHandle_fanout_fanin _ "img" {}
    [⟨⟨⟨0, 0⟩, ⟨1, 0⟩, ⟨1, 1⟩, ⟨0, 1⟩⟩, 1⟩, ⟨⟨⟨0, 0⟩, ⟨1, 0⟩, ⟨1, 1⟩, ⟨0, 1⟩⟩, 0⟩]
    (fun _ => "E:img") (fun i => "O:" ++ i)
    (fun l => "C:" ++ String.join (l.map (·.pdf_handle))) (fun p => "R:" ++ p)
    (fun p => "T:" ++ p) (fun p => "Z:" ++ p) rfl rfl (by decide)
    (fun _ => rfl) (fun _ => rfl) (fun _ => rfl) (fun _ => rfl) (fun _ => rfl)
    (fun _ => rfl)]
  decide

/-- C5: the raw-bytes entry points are the composition of upload, validate
and unwrap followed by the handle entry points, and the handle entry points
use none of the upload/validation collaborators. -/
theorem flow_dual_entry_points :
    (∀ (env : FlowEnv) (input : FlowInput) (options : OcrPdfOptions)
        (h : PdfHandle),
      ((env.upload (toFile input "document.pdf" "application/pdf")).bind fun up =>
        (env.pdfValidate up.unvalidated_file_handle options.password).bind fun v =>
          okPdf v) = .ok h →
      ocrPdf env input options = ocrPdfHandle env h options) ∧
    (∀ (env : FlowEnv) (input : FlowInput) (options : OcrImgOptions)
        (h : ImgHandle),
      ((env.upload (toFile input "image.jpg" "image/jpeg")).bind fun up =>
        (env.imgValidate up.unvalidated_file_handle).bind fun v =>
          okImg v) = .ok h →
      ocrImg env input options = ocrImgHandle env h options) ∧
    (∀ (env : FlowEnv) (u : File → Except MaraError DataUploadResponse)
        (iv : String → Except MaraError ImgValidateResponse)
        (pv : String → Option String → Except MaraError PdfValidateResponse)
        (h : PdfHandle) (options : OcrPdfOptions),
      ocrPdfHandle { env with upload := u, imgValidate := iv, pdfValidate := pv }
          h options =
        ocrPdfHandle env h options) ∧
    (∀ (env : FlowEnv) (u : File → Except MaraError DataUploadResponse)
        (iv : String → Except MaraError ImgValidateResponse)
        (pv : String → Option String → Except MaraError PdfValidateResponse)
        (h : ImgHandle) (options : OcrImgOptions),
      ocrImgHandle { env with upload := u, imgValidate := iv, pdfValidate := pv }
          h options =
        ocrImgHandle env h options) := by
  refine ⟨?_, ?_, ?_, ?_⟩
  · intro env input options h hchain
    unfold ocrPdf
    cases hu : env.upload (toFile input "document.pdf" "application/pdf") with
    | error e => rw [hu] at hchain; simp at hchain
    | ok up =>
      rw [hu] at hchain
      simp only [exceptBindFn_ok] at hchain
      cases hv : env.pdfValidate up.unvalidated_file_handle options.password with
      | error e => rw [hv] at hchain; simp at hchain
      | ok v =>
        rw [hv] at hchain
        simp only [exceptBindFn_ok] at hchain
        simp [hu, hv, hchain]
  · intro env input options h hchain
    unfold ocrImg
    cases hu : env.upload (toFile input "image.jpg" "image/jpeg") with
    | error e => rw [hu] at hchain; simp at hchain
    | ok up =>
      rw [hu] at hchain
      simp only [exceptBindFn_ok] at hchain
      cases hv : env.imgValidate up.unvalidated_file_handle with
      | error e => rw [hv] at hchain; simp at hchain
      | ok v =>
        rw [hv] at hchain
        simp only [exceptBindFn_ok] at hchain
        simp [hu, hv, hchain]
  · intro env u iv pv h options
    rfl
  · intro env u iv pv h options
    have hext : ∀ docs, extractAll
        { env with upload := u, imgValidate := iv, pdfValidate := pv } h docs =
        extractAll env h docs := by
      intro docs
      induction docs with
      | nil => rfl
      | cons d ds ih => simp [extractAll, ih]
    have hocr : ∀ hs, ocrAll
        { env with upload := u, imgValidate := iv, pdfValidate := pv }
          options.pdfOptions hs =
        ocrAll env options.pdfOptions hs := by
      intro hs
      induction hs with
      | nil => rfl
      | cons x xs ih => simp [ocrAll, ih]
    unfold ocrImgHandle
    simp only [hext, hocr]

theorem flow_dual_entry_points_witness :
    ocrPdf testFlowEnv (.bytes [1, 2, 3]) {} =
      ocrPdfHandle testFlowEnv "P:U:document.pdf" {} ∧
    ocrImg testFlowEnv (.bytes [1, 2, 3]) {} =
      ocrImgHandle testFlowEnv "I:U:image.jpg" {} ∧
    ocrPdfHandle
        { testFlowEnv with
          upload := fun _ => .error .noResponse
          imgValidate := fun _ => .error .noResponse
          pdfValidate := fun _ _ => .error .noResponse }
        "p" {} =
      ocrPdfHandle testFlowEnv "p" {} :=
  ⟨flow_dual_entry_points.1 testFlowEnv (.bytes [1, 2, 3]) {} "P:U:document.pdf" rfl,
   flow_dual_entry_points.2.1 testFlowEnv (.bytes [1, 2, 3]) {} "I:U:image.jpg" rfl,
   flow_dual_entry_points.2.2.1 testFlowEnv (fun _ => .error .noResponse)
     (fun _ => .error .noResponse) (fun _ _ => .error .noResponse) "p" {}⟩
